import Mathlib

/-!
Verification development for `petite-vue-transition` (src/index.ts): a
directive driving CSS enter/leave transitions on one DOM element.

The source is shallowly embedded below.  Pure string/number helpers
(`toMs`, `getTimeout`, `getTransitionInfo`, `saveArgument`) become Lean
functions over `List Char`; the stateful transition controller (the
directive's effect callback, `whenTransitionEnd`, the timers,
animation-frame callbacks and `transitionend` listeners) becomes an
explicit state machine `St` with an executable scheduler: pending timers
and frame callbacks live in a task list, and an `Action` either re-runs
the visibility effect, runs one pending task, or dispatches a
`transitionend` event targeting the element.

JS numbers are modelled as exact decimals `Dec` (integer mantissa over a
power of ten, kept in canonical form): every numeric value this program
manipulates is a finite decimal, and on every concrete value appearing
in the claims IEEE-double arithmetic produces the same exact result.
`Dec.toRat` interprets the representation in `ℚ` and the arithmetic is
proved correct under that interpretation.
-/

namespace PVT

/-! ### Exact decimal numbers (the JS number values arising here) -/

/-- `num / 10 ^ exp`, canonical when `exp = 0` or `10 ∤ num`. -/
structure Dec where
  num : Int
  exp : Nat
deriving DecidableEq, Repr

/-- Strip factors of ten to reach the canonical representative. -/
def Dec.reduce : Int → Nat → Dec
  | n, 0 => ⟨n, 0⟩
  | n, k + 1 => if n % 10 = 0 then Dec.reduce (n / 10) k else ⟨n, k + 1⟩

def Dec.mk' (n : Int) (k : Nat) : Dec := Dec.reduce n k

def Dec.ofInt (n : Int) : Dec := ⟨n, 0⟩

def Dec.toRat (a : Dec) : ℚ := (a.num : ℚ) / (10 : ℚ) ^ a.exp

def Dec.add (a b : Dec) : Dec :=
  let k := max a.exp b.exp
  Dec.mk' (a.num * 10 ^ (k - a.exp) + b.num * 10 ^ (k - b.exp)) k

/-- Multiplication by the integer 1000 (the only multiplication in the
source, `toMs`). -/
def Dec.mul1000 (a : Dec) : Dec := Dec.mk' (a.num * 1000) a.exp

def Dec.neg (a : Dec) : Dec := ⟨-a.num, a.exp⟩

def Dec.ble (a b : Dec) : Bool :=
  a.num * 10 ^ b.exp ≤ b.num * 10 ^ a.exp

def Dec.pos (a : Dec) : Bool := 0 < a.num

/-- `Math.max` on two (non-`NaN`) numbers. -/
def Dec.jsMax (a b : Dec) : Dec := if Dec.ble a b then b else a

/-- `Math.max(...l)` on a spread list of (non-`NaN`) numbers; `none`
stands for `-Infinity`, the value of `Math.max()` on an empty spread. -/
def Dec.listMax : List Dec → Option Dec
  | [] => none
  | a :: as => some (as.foldl Dec.jsMax a)

/-- JS truthiness of a number: falsy exactly at `0` (and `NaN`, which
`Option` plumbing handles separately). -/
def Dec.isTruthy (a : Dec) : Bool := a.num ≠ 0

theorem Dec.toRat_reduce (n : Int) (k : Nat) :
    (Dec.reduce n k).toRat = Dec.toRat ⟨n, k⟩ := by
  induction k generalizing n with
  | zero => rfl
  | succ k ih =>
    rw [Dec.reduce]
    by_cases h : n % 10 = 0
    · have h10 : (10 : Int) ∣ n := Int.dvd_of_emod_eq_zero h
      obtain ⟨m, hm⟩ := h10
      have hdiv : n / 10 = m := by rw [hm]; exact Int.mul_ediv_cancel_left m (by norm_num)
      rw [if_pos h, ih]
      unfold Dec.toRat
      simp only [hdiv, hm]
      push_cast
      rw [pow_succ]
      have h10k : ((10 : ℚ) ^ k) ≠ 0 := by positivity
      field_simp
      ring
    · simp [h]

theorem Dec.toRat_mk' (n : Int) (k : Nat) :
    (Dec.mk' n k).toRat = (n : ℚ) / (10 : ℚ) ^ k :=
  Dec.toRat_reduce n k

theorem Dec.toRat_add (a b : Dec) :
    (Dec.add a b).toRat = a.toRat + b.toRat := by
  unfold Dec.add
  rw [Dec.toRat_mk']
  unfold Dec.toRat
  rcases Nat.le_total a.exp b.exp with h | h
  · have hmax : max a.exp b.exp = b.exp := Nat.max_eq_right h
    rw [hmax]
    have hb : b.exp - b.exp = 0 := Nat.sub_self b.exp
    have hsplit : (10 : ℚ) ^ b.exp = 10 ^ a.exp * 10 ^ (b.exp - a.exp) := by
      rw [← pow_add]; congr 1; omega
    rw [hb, hsplit]
    push_cast
    have h10a : ((10 : ℚ) ^ a.exp) ≠ 0 := by positivity
    have h10c : ((10 : ℚ) ^ (b.exp - a.exp)) ≠ 0 := by positivity
    field_simp
    ring
  · have hmax : max a.exp b.exp = a.exp := Nat.max_eq_left h
    rw [hmax]
    have ha : a.exp - a.exp = 0 := Nat.sub_self a.exp
    have hsplit : (10 : ℚ) ^ a.exp = 10 ^ b.exp * 10 ^ (a.exp - b.exp) := by
      rw [← pow_add]; congr 1; omega
    rw [ha, hsplit]
    push_cast
    have h10a : ((10 : ℚ) ^ b.exp) ≠ 0 := by positivity
    have h10c : ((10 : ℚ) ^ (a.exp - b.exp)) ≠ 0 := by positivity
    field_simp
    ring

theorem Dec.toRat_mul1000 (a : Dec) :
    (Dec.mul1000 a).toRat = a.toRat * 1000 := by
  unfold Dec.mul1000
  rw [Dec.toRat_mk']
  unfold Dec.toRat
  push_cast
  ring

theorem Dec.ble_iff (a b : Dec) : Dec.ble a b = true ↔ a.toRat ≤ b.toRat := by
  unfold Dec.ble Dec.toRat
  rw [decide_eq_true_iff]
  rw [div_le_div_iff₀ (by positivity) (by positivity)]
  constructor
  · intro h
    exact_mod_cast h
  · intro h
    exact_mod_cast h

theorem Dec.pos_iff (a : Dec) : Dec.pos a = true ↔ 0 < a.toRat := by
  unfold Dec.pos Dec.toRat
  rw [decide_eq_true_iff]
  constructor
  · intro h
    positivity
  · intro h
    by_contra hn
    push_neg at hn
    have : (a.num : ℚ) ≤ 0 := by exact_mod_cast hn
    have h10 : (0 : ℚ) < (10 : ℚ) ^ a.exp := by positivity
    nlinarith [div_nonpos_of_nonpos_of_nonneg this (le_of_lt h10)]

/-! ### JS string primitives used by the source -/

/-- JS whitespace (the characters relevant to `Number` coercion for
computed-style values). -/
def isWs (c : Char) : Bool :=
  c = ' ' || c = '\t' || c = '\n' || c = '\r'

/-- Maximal non-whitespace runs of a character list; together with the
`c && ...` guard in the source this models `cls.split(/\s+/)` followed
by the empty-token filter. -/
def wsTokensAux : List Char → List Char → List (List Char)
  | cur, [] => if cur = [] then [] else [cur.reverse]
  | cur, c :: rest =>
    if isWs c then
      if cur = [] then wsTokensAux [] rest
      else cur.reverse :: wsTokensAux [] rest
    else wsTokensAux (c :: cur) rest

def wsTokens (s : String) : List String :=
  (wsTokensAux [] s.toList).map fun cs => String.mk cs

/-- JS `s.split(', ')`: split on the exact two-character separator,
left to right, keeping empty pieces (`''.split(', ') === ['']`). -/
def splitCommaSpace : List Char → List (List Char)
  | [] => [[]]
  | ',' :: ' ' :: rest => [] :: splitCommaSpace rest
  | c :: rest =>
    match splitCommaSpace rest with
    | [] => [[c]]
    | g :: gs => (c :: g) :: gs

/-- JS `s.replace(',', '.')` with a string pattern replaces only the
first occurrence. -/
def replaceFirstComma : List Char → List Char
  | [] => []
  | ',' :: rest => '.' :: rest
  | c :: rest => c :: replaceFirstComma rest

def trimWs (cs : List Char) : List Char :=
  ((cs.dropWhile isWs).reverse.dropWhile isWs).reverse

def digitsToNat (cs : List Char) : Nat :=
  cs.foldl (fun acc c => acc * 10 + (c.toNat - '0'.toNat)) 0

/-- JS `Number(s)` on the decimal fragment of its grammar:
whitespace-trimmed empty string is `0`; otherwise an optional sign, an
integer part and an optional `.`-separated fraction part (at least one
digit overall).  Anything else is `none`, standing for `NaN`.
(The full `Number` grammar also admits exponents, hex, `Infinity`, …;
computed-style time values never use those forms.) -/
def parseJSNumber (s : String) : Option Dec :=
  match trimWs s.toList with
  | [] => some (Dec.ofInt 0)
  | cs =>
    let sgn : Int := if cs.head? = some '-' then -1 else 1
    let cs1 : List Char :=
      if cs.head? = some '-' ∨ cs.head? = some '+' then cs.tail else cs
    let ip := cs1.takeWhile Char.isDigit
    let rest := cs1.dropWhile Char.isDigit
    match rest with
    | [] =>
      if ip = [] then none
      else some (Dec.mk' (sgn * (digitsToNat ip : Int)) 0)
    | '.' :: rest1 =>
      let fp := rest1.takeWhile Char.isDigit
      let rest2 := rest1.dropWhile Char.isDigit
      if rest2 = [] ∧ (ip ≠ [] ∨ fp ≠ []) then
        some (Dec.mk' (sgn * ((digitsToNat ip : Int) * 10 ^ fp.length + (digitsToNat fp : Int)))
          fp.length)
      else none
    | _ => none

/-- `toMs(s)`: `Number(s.slice(0, -1).replace(',', '.')) * 1000`
(src/index.ts:120-122).  `none` stands for `NaN`. -/
def toMs (s : String) : Option Dec :=
  (parseJSNumber (String.mk (replaceFirstComma (s.toList.take (s.toList.length - 1))))).map
    Dec.mul1000

example : toMs "0,3s" = some (Dec.ofInt 300) := by decide
example : toMs "0.1s" = some (Dec.ofInt 100) := by decide
example : toMs "" = some (Dec.ofInt 0) := by decide
example : toMs "5s" = some (Dec.ofInt 5000) := by decide

/-! ### `getTimeout` / `getTransitionInfo` (src/index.ts:129-159) -/

/-- The `while (delays.length < durations.length) delays = delays.concat(delays)`
loop of `getTimeout`, with explicit fuel.  For a non-empty `delays` the
list at least doubles each round, so `durations.length` rounds of fuel
always suffice (`extendDelays_length`); on an empty `delays` the JS loop
would not terminate, a case unreachable from `getTransitionInfo` since
`split` always returns a non-empty list. -/
def extendDelays : Nat → List String → List String → List String
  | 0, delays, _ => delays
  | fuel + 1, delays, durations =>
    if delays.length < durations.length then extendDelays fuel (delays ++ delays) durations
    else delays

/-- `getTimeout(delays, durations)` (src/index.ts:129-135):
`Math.max(...durations.map((d, i) => toMs(d) + toMs(delays[i])))`.
`none` stands for a non-finite result (`NaN` from an unparsable entry,
or `-Infinity` from an empty spread), which fails the `> 0` test
downstream exactly like `0`. -/
def getTimeout (delays durations : List String) : Option Dec :=
  ((List.range durations.length).mapM fun i =>
      (toMs (durations.getD i "")).bind fun a =>
        (toMs ((extendDelays durations.length delays durations).getD i "")).map fun b =>
          Dec.add a b).bind
    Dec.listMax

example : getTimeout ["0s", "0.1s"] ["0.2s", "0.3s"] = some (Dec.ofInt 400) := by decide
example : getTimeout ["1s", "5s"] ["1s"] = some (Dec.ofInt 2000) := by decide
example : getTimeout ["1s"] ["1s", "2s", "3s"] = some (Dec.ofInt 4000) := by decide

/-- The computed-style values `whenTransitionEnd` reads; `none` models a
property `getComputedStyle` reports as `undefined` (as JSDOM does). -/
structure Styles where
  transitionDelay : Option String
  transitionDuration : Option String
  transitionProperty : Option String
deriving DecidableEq, Repr

structure CSSTransitionInfo where
  propCount : Nat
  timeout : Dec
  hasTransform : Bool
deriving DecidableEq, Repr

/-- `(styles[key] || '').split(', ')` (src/index.ts:140). -/
def getStyleProperties (v : Option String) : List String :=
  (splitCommaSpace (v.getD "").toList).map fun cs => String.mk cs

def isWordChar (c : Char) : Bool := c.isAlphanum || c = '_'

/-- One attempt of `/\b(transform|all)(,|$)/` at the current position:
a word boundary (the alternatives start with word characters, so the
boundary holds exactly when the previous character is absent or not a
word character), then `transform` or `all`, then `,` or end of input. -/
def regexTryAt (prev : Option Char) (cs : List Char) : Bool :=
  (match prev with
   | none => true
   | some c => !isWordChar c) &&
  ((cs.take 9 = "transform".toList &&
      (cs.drop 9 = [] || (cs.drop 9).head? = some ',')) ||
   (cs.take 3 = "all".toList &&
      (cs.drop 3 = [] || (cs.drop 3).head? = some ',')))

def regexSearch : Option Char → List Char → Bool
  | prev, [] => regexTryAt prev []
  | prev, c :: rest => regexTryAt prev (c :: rest) || regexSearch (some c) rest

/-- `/\b(transform|all)(,|$)/.test(s)` (src/index.ts:152). -/
def testTransformRegex (s : String) : Bool :=
  regexSearch none s.toList

example : testTransformRegex "transform, opacity" = true := by decide
example : testTransformRegex "opacity" = false := by decide
example : testTransformRegex "alligator" = false := by decide
example : testTransformRegex "all" = true := by decide

/-- `getTransitionInfo(el)` (src/index.ts:137-159), as a function of the
element's computed style. -/
def getTransitionInfo (styles : Styles) : CSSTransitionInfo :=
  let transitionDelays := getStyleProperties styles.transitionDelay
  let transitionDurations := getStyleProperties styles.transitionDuration
  let transitionTimeout := getTimeout transitionDelays transitionDurations
  let isPos := match transitionTimeout with
    | some q => Dec.pos q
    | none => false
  { timeout := if isPos then transitionTimeout.getD (Dec.ofInt 0) else Dec.ofInt 0
    propCount := if isPos then transitionDurations.length else 0
    hasTransform := testTransformRegex (styles.transitionProperty.getD "") }

example :
    getTransitionInfo ⟨some "0s, 0.1s", some "0.2s, 0.3s", some "all"⟩ =
      ⟨2, Dec.ofInt 400, true⟩ := by decide
example : getTransitionInfo ⟨none, none, none⟩ = ⟨0, Dec.ofInt 0, false⟩ := by decide

/-! ### Argument store (`saveArgument`, src/index.ts:220-229) -/

/-- Scalar JS values. -/
inductive JSPrim
  | num (q : Dec)
  | str (s : String)
  | boolean (b : Bool)
  | nullV
  | undefinedV
deriving DecidableEq, Repr

/-- Untyped JS values as far as the argument store can observe them: it
only ever tests `Array.isArray` at the top level and never inspects
array elements, so one level of array structure suffices. -/
inductive JSVal
  | prim (p : JSPrim)
  | arr (l : List JSPrim)
deriving DecidableEq, Repr

/-- `Array.isArray(val)`. -/
def isArray : JSVal → Bool
  | .arr _ => true
  | _ => false

/-- The directive argument names (`enum TransitionArgument`). -/
inductive TransitionArgument
  | argName
  | argDuration
  | argShow
deriving DecidableEq, Repr

/-- The `_name` / `_duration` / `_show` fields the directive attaches to
the element; `none` models an absent (never written) field. -/
structure TransitionProps where
  nameProp : Option JSVal
  durationProp : Option JSVal
  showProp : Option JSVal
deriving DecidableEq, Repr

/-- `saveArgument(el, arg, val)` (src/index.ts:220-229): only for the
`duration` argument, a non-array value `v` is replaced by `[v, v]`;
the result is stored in the field named after the argument. -/
def saveArgument (el : TransitionProps) (arg : TransitionArgument) (val : JSVal) : TransitionProps :=
  let value :=
    if arg = .argDuration ∧ ¬ isArray val then
      match val with
      | .prim p => JSVal.arr [p, p]
      | .arr l => JSVal.arr l
    else val
  match arg with
  | .argName => { el with nameProp := some value }
  | .argDuration => { el with durationProp := some value }
  | .argShow => { el with showProp := some value }

/-! ### The transition controller as a state machine

One controller bound to one element.  Suspension points of the source —
`requestAnimationFrame`, `setTimeout`, `transitionend` — become pending
`Task`s / event dispatch, run by an explicit scheduler (`Action`), so a
run of the model is one interleaving of the host event loop. -/

/-- A transition direction. -/
inductive Phase
  | enter
  | leave
deriving DecidableEq, Repr

/-- What a `nextFrame` callback closure captured from its effect run:
the direction, the resolved transition name and the explicit duration
(`duration?.[0]` / `duration?.[1]`). -/
structure FrameCb where
  ph : Phase
  nm : String
  dur : Option Dec
deriving DecidableEq, Repr

/-- One `whenTransitionEnd` invocation: its captured completion id, the
`propCount` from `getTransitionInfo`, the shared mutable `ended`
counter, whether its `transitionend` listener is still attached, and
what its captured `resolve` closure does (direction + class prefix). -/
structure Detector where
  id : Nat
  propCount : Nat
  ended : Nat
  listening : Bool
  ph : Phase
  nm : String
deriving DecidableEq, Repr

/-- Pending asynchronous work.  `raf1`/`raf2` are the two stages of
`nextFrame`; the timer tasks carry the `setTimeout` delay (ms) and the
index of the detector whose closures they captured. -/
inductive Task
  | raf1 (cb : FrameCb)
  | raf2 (cb : FrameCb)
  | explicitTimer (det : Nat) (delay : Dec)
  | fallbackTimer (det : Nat) (delay : Dec)
deriving DecidableEq, Repr

/-- Ghost trace of the observable DOM operations, used to state
ordering claims.  `addClass`/`removeClass` record one
`addTransitionClass`/`removeTransitionClass` call (argument as written
in the source, before token splitting); `reflow` records the forced
layout read; `frameScheduled` a `nextFrame` call; `startDetect` a
`whenTransitionEnd` call; `resolveRun` an execution of a detector's
`resolve` callback. -/
inductive Op
  | addClass (c : String)
  | removeClass (c : String)
  | setDisplay (d : String)
  | reflow
  | frameScheduled
  | startDetect (dur : Option Dec)
  | resolveRun (id : Nat) (ph : Phase)
deriving DecidableEq, Repr

/-- The whole mutable state: the element (class list, inline display,
`_name`/`_duration`/`_endId` fields, its constant computed style and
whether it has a `style` property at all), the directive closure state
(`mounted`, `originalDisaplay` — source spelling), the module-global
`endId` counter, the live detectors, the pending tasks, and two ghost
fields (`opLog`, `assignedIds`) recording what happened. -/
structure St where
  hasStyle : Bool
  originalDisaplay : String
  styles : Styles
  classes : List String
  display : String
  nameArg : Option String
  durationArg : Option (Dec × Dec)
  mounted : Bool
  endIdEl : Nat
  globalEndId : Nat
  detectors : List Detector
  tasks : List Task
  opLog : List Op
  assignedIds : List Nat
deriving DecidableEq, Repr

/-- `classList.add(c)` for each whitespace token of `cls`
(`addTransitionClass`, src/index.ts:198-200). -/
def addTokens (classes : List String) (cls : String) : List String :=
  (wsTokens cls).foldl
    (fun acc c => if acc.contains c then acc else acc ++ [c]) classes

/-- `classList.remove(c)` for each whitespace token of `cls`
(`removeTransitionClass`, src/index.ts:202-204). -/
def removeTokens (classes : List String) (cls : String) : List String :=
  (wsTokens cls).foldl (fun acc c => acc.filter (fun x => x ≠ c)) classes

def addTransitionClass (s : St) (cls : String) : St :=
  { s with classes := addTokens s.classes cls, opLog := s.opLog ++ [.addClass cls] }

def removeTransitionClass (s : St) (cls : String) : St :=
  { s with classes := removeTokens s.classes cls, opLog := s.opLog ++ [.removeClass cls] }

/-- `setElementDisplay` (src/index.ts:214-218): a no-op on elements
without a `style` property. -/
def setElementDisplay (s : St) (d : String) : St :=
  if s.hasStyle then
    { s with display := d, opLog := s.opLog ++ [.setDisplay d] }
  else s

/-- `finishEnter` (src/index.ts:62-66) without its `done` argument. -/
def finishEnter (s : St) (nm : String) : St :=
  removeTransitionClass (removeTransitionClass s (nm ++ "-enter-active")) (nm ++ "-enter-to")

/-- `finishLeave` (src/index.ts:68-72) without its `done` argument. -/
def finishLeave (s : St) (nm : String) : St :=
  removeTransitionClass (removeTransitionClass s (nm ++ "-leave-active")) (nm ++ "-leave-to")

/-- The body of a detector's `resolve` closure: `finishEnter` for the
enter phase; `finishLeave(() => setElementDisplay(el, 'none'))` for the
leave phase (src/index.ts:76, 87-89). -/
def applyResolve (s : St) (det : Detector) : St :=
  let s1 := { s with opLog := s.opLog ++ [.resolveRun det.id det.ph] }
  match det.ph with
  | .enter => finishEnter s1 det.nm
  | .leave => setElementDisplay (finishLeave s1 det.nm) "none"

/-- `resolveIfNotStale` (src/index.ts:168-172): run `resolve` only when
the captured id still equals the element's live `_endId`. -/
def resolveIfNotStale (s : St) (i : Nat) : St :=
  match s.detectors.get? i with
  | none => s
  | some det => if det.id = s.endIdEl then applyResolve s det else s

def modifyDetector (dets : List Detector) (i : Nat) (f : Detector → Detector) : List Detector :=
  match dets.get? i with
  | none => dets
  | some d => dets.set i (f d)

/-- The `end` closure (src/index.ts:180-183): deregister the listener,
then resolve subject to the staleness check. -/
def endDetector (s : St) (i : Nat) : St :=
  resolveIfNotStale
    { s with detectors := modifyDetector s.detectors i (fun d => { d with listening := false }) } i

/-- `whenTransitionEnd(el, explicitTimeout, resolve)`
(src/index.ts:161-196).  Note the source does **not** return after
scheduling the explicit-duration timer: the style read, the
`transitionend` listener and the fallback timer are set up on every
call. -/
def whenTransitionEnd (s : St) (explicitTimeout : Option Dec) (ph : Phase) (nm : String) : St :=
  let id := s.globalEndId + 1
  let s1 := { s with
    globalEndId := id
    endIdEl := id
    assignedIds := s.assignedIds ++ [id]
    opLog := s.opLog ++ [.startDetect explicitTimeout] }
  let idx := s1.detectors.length
  let s2 : St := match explicitTimeout with
    | some d => if Dec.isTruthy d then { s1 with tasks := s1.tasks ++ [.explicitTimer idx d] } else s1
    | none => s1
  let info := getTransitionInfo s2.styles
  { s2 with
    detectors := s2.detectors ++
      [{ id := id, propCount := info.propCount, ended := 0, listening := true, ph := ph, nm := nm }]
    tasks := s2.tasks ++ [.fallbackTimer idx (Dec.add info.timeout (Dec.ofInt 1))] }

/-- The body of the callback `nextFrame` runs one frame later
(src/index.ts:80-84 and 95-99). -/
def runFrameCb (s : St) (cb : FrameCb) : St :=
  match cb.ph with
  | .enter =>
    let s1 := addTransitionClass (removeTransitionClass s (cb.nm ++ "-enter-from"))
      (cb.nm ++ "-enter-to")
    whenTransitionEnd s1 cb.dur .enter cb.nm
  | .leave =>
    let s1 := addTransitionClass (removeTransitionClass s (cb.nm ++ "-leave-from"))
      (cb.nm ++ "-leave-to")
    whenTransitionEnd s1 cb.dur .leave cb.nm

/-- Run one pending task (already removed from the queue).
`raf1` is the outer `requestAnimationFrame` of `nextFrame`, which only
schedules the inner one; the timer bodies are from src/index.ts:175 and
190-194 — note the fallback timer fires `end` only while
`ended < propCount`. -/
def runTask (s : St) : Task → St
  | .raf1 cb => { s with tasks := s.tasks ++ [.raf2 cb] }
  | .raf2 cb => runFrameCb s cb
  | .explicitTimer i _ => resolveIfNotStale s i
  | .fallbackTimer i _ =>
    match s.detectors.get? i with
    | none => s
    | some det => if det.ended < det.propCount then endDetector s i else s

/-- Deliver one `onEnd(e)` call with `e.target === el` to the listener
of detector `i`, if still attached (src/index.ts:185-189): increment the
shared `ended` counter, and `end()` once it reaches `propCount`. -/
def onEndStep (s : St) (i : Nat) : St :=
  match s.detectors.get? i with
  | none => s
  | some det =>
    if det.listening then
      let s1 :=
        { s with detectors := modifyDetector s.detectors i (fun d => { d with ended := d.ended + 1 }) }
      if det.ended + 1 ≥ det.propCount then endDetector s1 i else s1
    else s

/-- Dispatch one `transitionend` event targeting the element to every
listener attached at dispatch time, in registration order. -/
def fireTransitionEnd (s : St) : St :=
  (List.range s.detectors.length).foldl onEndStep s

/-- The body of the `effect(() => ...)` callback (src/index.ts:43-101),
for one (re)computation of the tracked visibility value. -/
def transitionEffect (s : St) (visible : Bool) : St :=
  if ¬ s.mounted then
    let s1 := setElementDisplay s (if visible then s.originalDisaplay else "none")
    { s1 with mounted := true }
  else
    let nm := s.nameArg.getD "v"
    let enterDuration := s.durationArg.map Prod.fst
    let leaveDuration := s.durationArg.map Prod.snd
    if visible then
      let s1 := finishLeave s nm
      let s2 := addTransitionClass s1 (nm ++ "-enter-active")
      let s3 := addTransitionClass s2 (nm ++ "-enter-from")
      let s4 := setElementDisplay s3 s.originalDisaplay
      { s4 with
        tasks := s4.tasks ++ [.raf1 ⟨.enter, nm, enterDuration⟩]
        opLog := s4.opLog ++ [.frameScheduled] }
    else
      let s1 := finishEnter s nm
      let s2 := addTransitionClass s1 (nm ++ "-leave-from")
      let s3 := { s2 with opLog := s2.opLog ++ [.reflow] }
      let s4 := addTransitionClass s3 (nm ++ "-leave-active")
      { s4 with
        tasks := s4.tasks ++ [.raf1 ⟨.leave, nm, leaveDuration⟩]
        opLog := s4.opLog ++ [.frameScheduled] }

/-- One scheduler step: re-run the visibility effect with a new value,
run (and consume) the `i`-th pending task, or dispatch a
`transitionend` event. -/
inductive Action
  | toggle (b : Bool)
  | runT (i : Nat)
  | fireEnd
deriving DecidableEq, Repr

def runAction (s : St) : Action → St
  | .toggle b => transitionEffect s b
  | .runT i =>
    match s.tasks.get? i with
    | none => s
    | some t => runTask { s with tasks := s.tasks.eraseIdx i } t
  | .fireEnd => fireTransitionEnd s

def runSchedule (s : St) (acts : List Action) : St :=
  acts.foldl runAction s

/-- A freshly bound controller on a style-bearing element whose inline
display starts empty. -/
def initSt (styles : Styles) : St :=
  { hasStyle := true
    originalDisaplay := ""
    styles := styles
    classes := []
    display := ""
    nameArg := none
    durationArg := none
    mounted := false
    endIdEl := 0
    globalEndId := 0
    detectors := []
    tasks := []
    opLog := []
    assignedIds := [] }

/-! ### Properties of `extendDelays` / `getTimeout` -/

theorem mapM_option_congr {α β : Type} (f g : α → Option β) (l : List α)
    (h : ∀ a ∈ l, f a = g a) : l.mapM f = l.mapM g := by
  induction l with
  | nil => rfl
  | cons a as ih =>
    rw [List.mapM_cons, List.mapM_cons, h a (List.mem_cons_self a as),
      ih (fun x hx => h x (List.mem_cons_of_mem a hx))]

theorem extendDelays_length (fuel : Nat) (durations : List String) :
    ∀ delays : List String, delays ≠ [] →
      durations.length ≤ fuel + delays.length →
      durations.length ≤ (extendDelays fuel delays durations).length := by
  induction fuel with
  | zero =>
    intro delays _ hf
    rw [extendDelays]
    omega
  | succ fuel ih =>
    intro delays h hf
    rw [extendDelays]
    by_cases hlt : delays.length < durations.length
    · rw [if_pos hlt]
      have hne : delays ++ delays ≠ [] := by
        intro hc
        exact h (List.append_eq_nil.mp hc).1
      have hd : 1 ≤ delays.length := List.length_pos.mpr h
      apply ih (delays ++ delays) hne
      rw [List.length_append]
      omega
    · rw [if_neg hlt]
      omega

/-- `l` is `base` repeated cyclically some whole number of times. -/
def IsCyclicExt (base l : List String) : Prop :=
  base.length ∣ l.length ∧ ∀ i, i < l.length → l.get? i = base.get? (i % base.length)

theorem isCyclicExt_self (base : List String) : IsCyclicExt base base :=
  ⟨dvd_refl _, fun i hi => by rw [Nat.mod_eq_of_lt hi]⟩

theorem isCyclicExt_double (base l : List String) (h : IsCyclicExt base l) :
    IsCyclicExt base (l ++ l) := by
  obtain ⟨⟨k, hk⟩, hget⟩ := h
  constructor
  · exact ⟨2 * k, by rw [List.length_append, hk]; ring⟩
  · intro i hi
    rw [List.length_append] at hi
    rcases Nat.lt_or_ge i l.length with hlt | hge
    · rw [List.get?_append hlt]
      exact hget i hlt
    · have hi2 : i - l.length < l.length := by omega
      have heq : i = (i - l.length) + base.length * k := by omega
      have hmod : i % base.length = (i - l.length) % base.length := by
        conv_lhs => rw [heq]
        rw [Nat.add_mul_mod_self_left]
      rw [List.get?_append_right hge, hget _ hi2, hmod]

theorem extendDelays_cyclic (fuel : Nat) (durations : List String) :
    ∀ base l : List String, IsCyclicExt base l →
      IsCyclicExt base (extendDelays fuel l durations) := by
  induction fuel with
  | zero =>
    intro base l h
    rw [extendDelays]
    exact h
  | succ fuel ih =>
    intro base l h
    rw [extendDelays]
    by_cases hlt : l.length < durations.length
    · rw [if_pos hlt]
      exact ih base (l ++ l) (isCyclicExt_double base l h)
    · rw [if_neg hlt]
      exact h

theorem getD_eq_get? {α : Type} (l : List α) (n : Nat) (d : α) :
    l.getD n d = (l.get? n).getD d := by
  simp [List.getD_eq_getElem?_getD, List.get?_eq_getElem?]

/-- The timeout computation as the claim words it: cycle the *shorter*
of the two lists to the longer list's length and maximise
`delay + duration` over all entries of that longer length.  (The code
only ever extends `delays`; this definition is the claim's version, for
comparison.) -/
def getTimeoutClaimed (delays durations : List String) : Option Dec :=
  let n := max delays.length durations.length
  ((List.range n).mapM fun i =>
      (toMs (durations.getD (i % durations.length) "")).bind fun a =>
        (toMs (delays.getD (i % delays.length) "")).map fun b => Dec.add a b).bind
    Dec.listMax

example : getTimeoutClaimed ["1s", "5s"] ["1s"] = some (Dec.ofInt 6000) := by decide

/-! ### The completion-id invariant -/

/-- `l` is strictly increasing in each adjacent pair. -/
def strictChain : List Nat → Bool
  | [] => true
  | [_] => true
  | a :: b :: rest => decide (a < b) && strictChain (b :: rest)

theorem strictChain_append_singleton (l : List Nat) (a : Nat)
    (hl : strictChain l = true) (hbound : ∀ j ∈ l, j < a) :
    strictChain (l ++ [a]) = true := by
  induction l with
  | nil => rfl
  | cons x xs ih =>
    cases xs with
    | nil =>
      have hx : x < a := hbound x (List.mem_singleton_self x)
      simp [strictChain, hx]
    | cons y ys =>
      simp only [strictChain, Bool.and_eq_true, decide_eq_true_iff] at hl
      have htail : strictChain ((y :: ys) ++ [a]) = true :=
        ih hl.2 (fun j hj => hbound j (List.mem_cons_of_mem x hj))
      simp only [List.cons_append, strictChain, Bool.and_eq_true, decide_eq_true_iff]
      exact ⟨hl.1, by simpa using htail⟩

/-- Invariant of reachable states: the ids handed out by the global
counter were assigned in strictly increasing order, and the counter
bounds them all. -/
def Inv (s : St) : Prop :=
  strictChain s.assignedIds = true ∧ ∀ j ∈ s.assignedIds, j ≤ s.globalEndId

instance (s : St) : Decidable (Inv s) :=
  inferInstanceAs
    (Decidable (strictChain s.assignedIds = true ∧ ∀ j ∈ s.assignedIds, j ≤ s.globalEndId))

/-- `f` left the ghost id fields alone. -/
def IdsUntouched (s t : St) : Prop :=
  t.assignedIds = s.assignedIds ∧ t.globalEndId = s.globalEndId

theorem Inv_of_idsUntouched {s t : St} (h : IdsUntouched s t) (hs : Inv s) : Inv t := by
  obtain ⟨h1, h2⟩ := h
  exact ⟨h1 ▸ hs.1, fun j hj => h2 ▸ hs.2 j (h1 ▸ hj)⟩

theorem idsUntouched_refl (s : St) : IdsUntouched s s := ⟨rfl, rfl⟩

theorem idsUntouched_trans {s t u : St} (h1 : IdsUntouched s t) (h2 : IdsUntouched t u) :
    IdsUntouched s u := ⟨h2.1.trans h1.1, h2.2.trans h1.2⟩

theorem idsUntouched_addTransitionClass (s : St) (c : String) :
    IdsUntouched s (addTransitionClass s c) := ⟨rfl, rfl⟩

theorem idsUntouched_removeTransitionClass (s : St) (c : String) :
    IdsUntouched s (removeTransitionClass s c) := ⟨rfl, rfl⟩

theorem idsUntouched_setElementDisplay (s : St) (d : String) :
    IdsUntouched s (setElementDisplay s d) := by
  unfold setElementDisplay
  by_cases h : s.hasStyle <;> simp [h, IdsUntouched]

theorem idsUntouched_finishEnter (s : St) (n : String) :
    IdsUntouched s (finishEnter s n) := ⟨rfl, rfl⟩

theorem idsUntouched_finishLeave (s : St) (n : String) :
    IdsUntouched s (finishLeave s n) := ⟨rfl, rfl⟩

theorem idsUntouched_applyResolve (s : St) (det : Detector) :
    IdsUntouched s (applyResolve s det) := by
  unfold applyResolve
  cases det.ph
  · exact ⟨rfl, rfl⟩
  · exact idsUntouched_trans (s := s)
      ⟨rfl, rfl⟩ (idsUntouched_setElementDisplay _ "none")

theorem idsUntouched_resolveIfNotStale (s : St) (i : Nat) :
    IdsUntouched s (resolveIfNotStale s i) := by
  unfold resolveIfNotStale
  cases hdet : s.detectors.get? i with
  | none => exact idsUntouched_refl s
  | some det =>
    by_cases h : det.id = s.endIdEl
    · simp only [h, if_true]
      exact idsUntouched_applyResolve s det
    · simp only [h, if_false]
      exact idsUntouched_refl s

theorem idsUntouched_endDetector (s : St) (i : Nat) :
    IdsUntouched s (endDetector s i) := by
  unfold endDetector
  exact idsUntouched_trans (⟨rfl, rfl⟩ : IdsUntouched s _) (idsUntouched_resolveIfNotStale _ i)

theorem idsUntouched_onEndStep (s : St) (i : Nat) :
    IdsUntouched s (onEndStep s i) := by
  unfold onEndStep
  cases hdet : s.detectors.get? i with
  | none => exact idsUntouched_refl s
  | some det =>
    by_cases hl : det.listening
    · simp only [hl, if_true]
      by_cases hc : det.ended + 1 ≥ det.propCount
      · simp only [hc, if_true]
        exact idsUntouched_trans (⟨rfl, rfl⟩ : IdsUntouched s _) (idsUntouched_endDetector _ i)
      · simp only [hc, if_false]
        exact ⟨rfl, rfl⟩
    · simp only [hl, if_false]
      exact idsUntouched_refl s

theorem idsUntouched_fireTransitionEnd (s : St) :
    IdsUntouched s (fireTransitionEnd s) := by
  unfold fireTransitionEnd
  generalize List.range s.detectors.length = l
  induction l generalizing s with
  | nil => exact idsUntouched_refl s
  | cons i rest ih =>
    exact idsUntouched_trans (idsUntouched_onEndStep s i) (ih (onEndStep s i))

theorem idsUntouched_transitionEffect (s : St) (b : Bool) :
    IdsUntouched s (transitionEffect s b) := by
  unfold IdsUntouched transitionEffect finishEnter finishLeave addTransitionClass
    removeTransitionClass setElementDisplay
  split_ifs <;> simp [apply_ite St.assignedIds, apply_ite St.globalEndId]

theorem Inv_whenTransitionEnd {s : St} (hs : Inv s) (et : Option Dec) (ph : Phase) (n : String) :
    Inv (whenTransitionEnd s et ph n) := by
  obtain ⟨hchain, hbound⟩ := hs
  have hids : (whenTransitionEnd s et ph n).assignedIds = s.assignedIds ++ [s.globalEndId + 1] := by
    unfold whenTransitionEnd
    cases et with
    | none => rfl
    | some d =>
      by_cases hd : Dec.isTruthy d <;> simp [hd]
  have hgid : (whenTransitionEnd s et ph n).globalEndId = s.globalEndId + 1 := by
    unfold whenTransitionEnd
    cases et with
    | none => rfl
    | some d =>
      by_cases hd : Dec.isTruthy d <;> simp [hd]
  constructor
  · rw [hids]
    exact strictChain_append_singleton _ _ hchain
      (fun j hj => Nat.lt_succ_of_le (hbound j hj))
  · intro j hj
    rw [hids] at hj
    rw [hgid]
    rcases List.mem_append.mp hj with hj1 | hj2
    · exact Nat.le_succ_of_le (hbound j hj1)
    · simp only [List.mem_singleton] at hj2
      omega

theorem Inv_runTask {s : St} (hs : Inv s) (t : Task) : Inv (runTask s t) := by
  cases t with
  | raf1 cb => exact Inv_of_idsUntouched ⟨rfl, rfl⟩ hs
  | raf2 cb =>
    obtain ⟨ph, n, dur⟩ := cb
    cases ph
    · have h1 : runTask s (.raf2 ⟨.enter, n, dur⟩) =
          whenTransitionEnd
            (addTransitionClass (removeTransitionClass s (n ++ "-enter-from")) (n ++ "-enter-to"))
            dur .enter n := rfl
      rw [h1]
      exact Inv_whenTransitionEnd
        (Inv_of_idsUntouched
          (idsUntouched_trans (idsUntouched_removeTransitionClass _ _)
            (idsUntouched_addTransitionClass _ _)) hs) _ _ _
    · have h1 : runTask s (.raf2 ⟨.leave, n, dur⟩) =
          whenTransitionEnd
            (addTransitionClass (removeTransitionClass s (n ++ "-leave-from")) (n ++ "-leave-to"))
            dur .leave n := rfl
      rw [h1]
      exact Inv_whenTransitionEnd
        (Inv_of_idsUntouched
          (idsUntouched_trans (idsUntouched_removeTransitionClass _ _)
            (idsUntouched_addTransitionClass _ _)) hs) _ _ _
  | explicitTimer i d =>
    exact Inv_of_idsUntouched (idsUntouched_resolveIfNotStale s i) hs
  | fallbackTimer i d =>
    have h1 : runTask s (.fallbackTimer i d) =
        (match s.detectors.get? i with
         | none => s
         | some det => if det.ended < det.propCount then endDetector s i else s) := rfl
    rw [h1]
    cases hdet : s.detectors.get? i with
    | none => exact hs
    | some det =>
      by_cases hc : det.ended < det.propCount
      · simp only [hc, if_true]
        exact Inv_of_idsUntouched (idsUntouched_endDetector s i) hs
      · simp only [hc, if_false]
        exact hs

theorem Inv_runAction {s : St} (hs : Inv s) (a : Action) : Inv (runAction s a) := by
  cases a with
  | toggle b => exact Inv_of_idsUntouched (idsUntouched_transitionEffect s b) hs
  | runT i =>
    have h1 : runAction s (.runT i) =
        (match s.tasks.get? i with
         | none => s
         | some t => runTask { s with tasks := s.tasks.eraseIdx i } t) := rfl
    rw [h1]
    cases ht : s.tasks.get? i with
    | none => exact hs
    | some t =>
      show Inv (runTask { s with tasks := s.tasks.eraseIdx i } t)
      exact Inv_runTask
        (Inv_of_idsUntouched
          (⟨rfl, rfl⟩ : IdsUntouched s { s with tasks := s.tasks.eraseIdx i }) hs) t
  | fireEnd => exact Inv_of_idsUntouched (idsUntouched_fireTransitionEnd s) hs

/-! ### Concrete scenarios used by the claims -/

/-- An element whose computed style declares a single 0.1s transition on
all properties. -/
def rapidStyles : Styles := ⟨some "0s", some "0.1s", some "all"⟩

/-- A computed style with no usable transition properties (JSDOM-like:
every lookup yields `undefined`). -/
def emptyStyles : Styles := ⟨none, none, none⟩

/-- Rapid toggle: mount hidden, show and hide again within one tick
(both effect runs before any animation frame), then let every pending
frame callback, `transitionend` event and timer fire in browser order
(frames in registration order, then the transition-end event of the
running 0.1s transition, then both fallback timers). -/
def rapidSchedule : List Action :=
  [.toggle false, .toggle true, .toggle false,
   .runT 0, .runT 0, .runT 0, .runT 0, .fireEnd, .runT 0, .runT 0]

def rapidFinal : St := runSchedule (initSt rapidStyles) rapidSchedule

/-- "Two-element ordered pair" in the claim's sense. -/
def isTwoElemArray : JSVal → Bool
  | .arr [_, _] => true
  | _ => false

def emptyProps : TransitionProps := ⟨none, none, none⟩

/-- The amended timeout rule: `delays` (cycled) is paired with each of
the `durations` entries — entries of `delays` beyond `durations.length`
are ignored. -/
def getTimeoutCyclicSpec (delays durations : List String) : Option Dec :=
  ((List.range durations.length).mapM fun i =>
      (toMs (durations.getD i "")).bind fun a =>
        (toMs (delays.getD (i % delays.length) "")).map fun b => Dec.add a b).bind
    Dec.listMax

/-! ### Claim theorems -/

/-- C1: the claim says that after rapid show/hide toggles, once all
scheduled animation-frame callbacks, timers and transition-end events
have fired, only classes of the last issued phase remain.  The code
violates this: in the rapid schedule above the last issued phase is
`leave`, all pending work has settled (no tasks, no attached
listeners), the leave transition completed (display `"none"`), yet the
superseded enter phase's `v-enter-to` class is still on the element —
its remover is the stale enter detector's `resolve`, which the
staleness check (correctly) suppresses, and nothing else ever removes
it. -/
theorem claim1_stale_enter_class_persists :
    rapidFinal.classes = ["v-enter-to"] ∧
    rapidFinal.display = "none" ∧
    rapidFinal.tasks = [] ∧
    rapidFinal.detectors.all (fun d => !d.listening) = true := by decide

/-- C2: the claim (and spec §7) says that with no usable transition
properties the fallback timer resolves immediately and the resolve
callback is always eventually invoked.  The code never invokes it: with
`propCount = 0` the fallback timer body's `ended < propCount` guard is
`0 < 0`, so `end()` is skipped; after the only pending task has run
there is no task left, the listener is still attached, and no
`resolveRun` was ever logged — the wait hangs forever. -/
theorem claim2_zero_propCount_never_resolves :
    (whenTransitionEnd (initSt emptyStyles) none .leave "v").tasks =
      [.fallbackTimer 0 (Dec.ofInt 1)] ∧
    (runAction (whenTransitionEnd (initSt emptyStyles) none .leave "v") (.runT 0)).tasks = [] ∧
    (runAction (whenTransitionEnd (initSt emptyStyles) none .leave "v") (.runT 0)).detectors =
      [⟨1, 0, 0, true, .leave, "v"⟩] ∧
    (runAction (whenTransitionEnd (initSt emptyStyles) none .leave "v") (.runT 0)).opLog =
      [.startDetect none] := by decide

theorem modifyDetector_get_same (dets : List Detector) (i : Nat) (f : Detector → Detector)
    (det : Detector) (h : dets.get? i = some det) :
    (modifyDetector dets i f).get? i = some (f det) := by
  unfold modifyDetector
  rw [h, List.get?_set_eq, h]
  rfl

theorem resolveIfNotStale_stale (s : St) (i : Nat) (det : Detector)
    (hdet : s.detectors.get? i = some det) (hne : det.id ≠ s.endIdEl) :
    resolveIfNotStale s i = s := by
  unfold resolveIfNotStale
  rw [hdet]
  exact if_neg hne

/-- C3: every `whenTransitionEnd` call stores `++endId` as the
element's `_endId`, strictly above every id previously handed out by
the shared counter (recorded in the ghost `assignedIds`, whose strict
ordering is an invariant of every scheduler action); and every
resolution path goes through `resolveIfNotStale`, which is a pure no-op
when the captured id is stale — the event/fallback path (`end`) then
only detaches the listener, leaving classes, display and the operation
log untouched. -/
theorem claim3_completion_id_monotone_and_stale_noop :
    (∀ s a, Inv s → Inv (runAction s a)) ∧
    (∀ s et ph n, Inv s →
      (whenTransitionEnd s et ph n).endIdEl = s.globalEndId + 1 ∧
      (whenTransitionEnd s et ph n).assignedIds = s.assignedIds ++ [s.globalEndId + 1] ∧
      ∀ j ∈ s.assignedIds, j < (whenTransitionEnd s et ph n).endIdEl) ∧
    (∀ s i det, s.detectors.get? i = some det → det.id ≠ s.endIdEl →
      resolveIfNotStale s i = s ∧
      (endDetector s i).classes = s.classes ∧
      (endDetector s i).display = s.display ∧
      (endDetector s i).opLog = s.opLog) := by
  refine ⟨fun s a hs => Inv_runAction hs a, ?_, ?_⟩
  · intro s et ph n hs
    have hgid : (whenTransitionEnd s et ph n).endIdEl = s.globalEndId + 1 := by
      unfold whenTransitionEnd
      cases et with
      | none => rfl
      | some d => by_cases hd : Dec.isTruthy d <;> simp [hd]
    have hids : (whenTransitionEnd s et ph n).assignedIds =
        s.assignedIds ++ [s.globalEndId + 1] := by
      unfold whenTransitionEnd
      cases et with
      | none => rfl
      | some d => by_cases hd : Dec.isTruthy d <;> simp [hd]
    refine ⟨hgid, hids, fun j hj => ?_⟩
    rw [hgid]
    exact Nat.lt_succ_of_le (hs.2 j hj)
  · intro s i det hdet hne
    have hstale : resolveIfNotStale s i = s := resolveIfNotStale_stale s i det hdet hne
    have hmod : (modifyDetector s.detectors i (fun d => { d with listening := false })).get? i =
        some { det with listening := false } :=
      modifyDetector_get_same s.detectors i _ det hdet
    have hend : endDetector s i =
        { s with detectors := modifyDetector s.detectors i (fun d => { d with listening := false }) } := by
      unfold endDetector
      exact resolveIfNotStale_stale _ i { det with listening := false } hmod hne
    exact ⟨hstale, by rw [hend], by rw [hend], by rw [hend]⟩

/-- A live state after one completion wait: used to discharge the
hypotheses of the C3 theorem on concrete data. -/
def idStateA : St := whenTransitionEnd (initSt emptyStyles) none .enter "v"

def idStateB : St := whenTransitionEnd idStateA none .leave "v"

theorem claim3_witness :
    Inv (runAction idStateA (Action.runT 0)) ∧
    (whenTransitionEnd idStateA none Phase.leave "v").endIdEl = idStateA.globalEndId + 1 ∧
    resolveIfNotStale idStateB 0 = idStateB :=
  ⟨claim3_completion_id_monotone_and_stale_noop.1 idStateA (Action.runT 0) (by decide),
   (claim3_completion_id_monotone_and_stale_noop.2.1 idStateA none Phase.leave "v" (by decide)).1,
   (claim3_completion_id_monotone_and_stale_noop.2.2 idStateB 0
      ⟨1, 0, 0, true, Phase.enter, "v"⟩ (by decide) (by decide)).1⟩

/-- C4 counterexample: the claim says an explicit duration bypasses
style introspection entirely — no transition-end listener and no
fallback timer.  On a concrete call with explicit duration 300 the
resulting state holds *both* the explicit timer and the fallback timer
(scheduled from the style read, at `timeout + 1 = 1` ms here), and the
detector's `transitionend` listener is attached. -/
theorem claim4_introspection_not_bypassed :
    (whenTransitionEnd (initSt emptyStyles) (some (Dec.ofInt 300)) .enter "v").tasks =
      [.explicitTimer 0 (Dec.ofInt 300), .fallbackTimer 0 (Dec.ofInt 1)] ∧
    (whenTransitionEnd (initSt emptyStyles) (some (Dec.ofInt 300)) .enter "v").detectors =
      [⟨1, 0, 0, true, .enter, "v"⟩] := by decide

/-- C4 as amended: with a truthy explicit duration a timer is scheduled
for exactly that duration, and its firing is exactly
`resolveIfNotStale`; but style introspection is *not* bypassed — the
fallback timer (at the introspected `timeout + 1`) and the
`transitionend` listener are set up as well. -/
theorem claim4_explicit_timer_scheduled (s : St) (d : Dec) (ph : Phase) (n : String)
    (hd : Dec.isTruthy d = true) :
    (whenTransitionEnd s (some d) ph n).tasks =
      s.tasks ++ [.explicitTimer s.detectors.length d,
        .fallbackTimer s.detectors.length
          (Dec.add (getTransitionInfo s.styles).timeout (Dec.ofInt 1))] ∧
    (whenTransitionEnd s (some d) ph n).detectors =
      s.detectors ++ [⟨s.globalEndId + 1, (getTransitionInfo s.styles).propCount, 0, true, ph, n⟩] ∧
    (∀ t i dd, runTask t (.explicitTimer i dd) = resolveIfNotStale t i) := by
  refine ⟨?_, ?_, fun t i dd => rfl⟩ <;>
    simp [whenTransitionEnd, hd]

theorem claim4_witness :
    (whenTransitionEnd (initSt emptyStyles) (some (Dec.ofInt 300)) Phase.enter "v").tasks =
      (initSt emptyStyles).tasks ++
        [.explicitTimer (initSt emptyStyles).detectors.length (Dec.ofInt 300),
         .fallbackTimer (initSt emptyStyles).detectors.length
           (Dec.add (getTransitionInfo (initSt emptyStyles).styles).timeout (Dec.ofInt 1))] :=
  (claim4_explicit_timer_scheduled (initSt emptyStyles) (Dec.ofInt 300) Phase.enter "v"
    (by decide)).1

/-- C5: the very first run of the visibility effect only sets the
inline display (to the captured pre-directive value when `show` is
true, to `"none"` otherwise — skipped entirely on elements without a
`style` property) and flips the `mounted` flag: the class list, the
pending-task queue and everything else are untouched, and no class
operation is logged. -/
theorem claim5_mount_no_class_mutation (s : St) (b : Bool) :
    transitionEffect { s with mounted := false } b =
      (if s.hasStyle then
        { s with
            mounted := true
            display := if b then s.originalDisaplay else "none"
            opLog := s.opLog ++ [.setDisplay (if b then s.originalDisaplay else "none")] }
      else { s with mounted := true }) := by
  cases h : s.hasStyle <;> cases b <;>
    simp [transitionEffect, setElementDisplay, h]

/-- C6: toggling a mounted element to hidden performs, in order:
finish any in-flight enter phase synchronously (the two class
removals), add `-leave-from`, force the layout read, add
`-leave-active`, and schedule the two chained animation frames; the
frame callback then removes `-leave-from`, adds `-leave-to` and starts
completion detection with the leave duration; and a non-stale
completion removes `-leave-active` and `-leave-to` and sets inline
display to `"none"`. -/
theorem claim6_leave_sequence_order :
    (∀ s : St,
      (transitionEffect { s with mounted := true } false).opLog =
        s.opLog ++ [.removeClass (s.nameArg.getD "v" ++ "-enter-active"),
          .removeClass (s.nameArg.getD "v" ++ "-enter-to"),
          .addClass (s.nameArg.getD "v" ++ "-leave-from"), .reflow,
          .addClass (s.nameArg.getD "v" ++ "-leave-active"), .frameScheduled] ∧
      (transitionEffect { s with mounted := true } false).tasks =
        s.tasks ++ [.raf1 ⟨.leave, s.nameArg.getD "v", s.durationArg.map Prod.snd⟩]) ∧
    (∀ (s : St) (cb : FrameCb),
      runTask s (.raf1 cb) = { s with tasks := s.tasks ++ [.raf2 cb] }) ∧
    (∀ (s : St) (n : String) (ld : Option Dec),
      (runTask s (.raf2 ⟨.leave, n, ld⟩)).opLog =
        s.opLog ++ [.removeClass (n ++ "-leave-from"), .addClass (n ++ "-leave-to"),
          .startDetect ld]) ∧
    (∀ (s : St) (i : Nat) (det : Detector),
      s.detectors.get? i = some det → det.id = s.endIdEl → det.ph = .leave →
      (resolveIfNotStale s i).opLog =
        s.opLog ++ [.resolveRun det.id .leave, .removeClass (det.nm ++ "-leave-active"),
          .removeClass (det.nm ++ "-leave-to")] ++
          (if s.hasStyle then [.setDisplay "none"] else []) ∧
      (s.hasStyle = true → (resolveIfNotStale s i).display = "none")) := by
  refine ⟨?_, fun s cb => rfl, ?_, ?_⟩
  · intro s
    constructor <;>
      simp [transitionEffect, finishEnter, addTransitionClass, removeTransitionClass]
  · intro s n ld
    cases ld with
    | none =>
      simp [runTask, runFrameCb, whenTransitionEnd, addTransitionClass, removeTransitionClass]
    | some d =>
      by_cases hd : Dec.isTruthy d <;>
        simp [runTask, runFrameCb, whenTransitionEnd, addTransitionClass,
          removeTransitionClass, hd]
  · intro s i det hdet hid hph
    have hres : resolveIfNotStale s i = applyResolve s det := by
      unfold resolveIfNotStale
      rw [hdet]
      exact if_pos hid
    rw [hres]
    unfold applyResolve
    rw [hph]
    constructor
    · cases h : s.hasStyle <;>
        simp [finishLeave, removeTransitionClass, setElementDisplay, h]
    · intro h
      simp [finishLeave, removeTransitionClass, setElementDisplay, h]

theorem claim6_witness :
    (transitionEffect { initSt rapidStyles with mounted := true } false).opLog =
      (initSt rapidStyles).opLog ++ [.removeClass "v-enter-active", .removeClass "v-enter-to",
        .addClass "v-leave-from", .reflow, .addClass "v-leave-active", .frameScheduled] ∧
    (resolveIfNotStale idStateB 1).opLog =
      idStateB.opLog ++ [.resolveRun 2 .leave, .removeClass "v-leave-active",
        .removeClass "v-leave-to"] ++ [.setDisplay "none"] :=
  ⟨by
    have h := (claim6_leave_sequence_order.1 (initSt rapidStyles)).1
    simpa using h,
   by
    have h := (claim6_leave_sequence_order.2.2.2 idStateB 1 ⟨2, 0, 0, true, .leave, "v"⟩
      (by decide) (by decide) rfl).1
    simpa using h⟩

/-- C7 counterexample: the claim says the *shorter* list is cycled to
the longer list's length, in particular also when `durations` is the
shorter one.  With delays `["1s", "5s"]` and durations `["1s"]` the
code takes the maximum over the `durations` entries only and yields
2000 ms, while the claimed both-ways cycling rule yields
`max(1s+1s, 5s+1s) = 6000` ms. -/
theorem claim7_durations_shorter_not_cycled :
    getTimeout ["1s", "5s"] ["1s"] = some (Dec.ofInt 2000) ∧
    getTimeoutClaimed ["1s", "5s"] ["1s"] = some (Dec.ofInt 6000) ∧
    getTimeout ["1s", "5s"] ["1s"] ≠ getTimeoutClaimed ["1s", "5s"] ["1s"] := by decide

/-- C7 as amended: only `delays` is ever extended.  For a non-empty
`delays` list, `getTimeout` equals the maximum over the `durations`
entries of `toMs(durations[i]) + toMs(delays[i mod |delays|])` — the
delays list is cycled when it is shorter, and its extra entries are
ignored when it is longer. -/
theorem claim7_delays_cycled (delays durations : List String) (h : delays ≠ []) :
    getTimeout delays durations = getTimeoutCyclicSpec delays durations := by
  unfold getTimeout getTimeoutCyclicSpec
  have hcyc : IsCyclicExt delays (extendDelays durations.length delays durations) :=
    extendDelays_cyclic durations.length durations delays delays (isCyclicExt_self delays)
  have hlen : durations.length ≤ (extendDelays durations.length delays durations).length :=
    extendDelays_length durations.length durations delays h (by omega)
  have hpos : 0 < delays.length := List.length_pos.mpr h
  have hcong :
      (List.range durations.length).mapM (fun i =>
        (toMs (durations.getD i "")).bind fun a =>
          (toMs ((extendDelays durations.length delays durations).getD i "")).map fun b =>
            Dec.add a b) =
      (List.range durations.length).mapM (fun i =>
        (toMs (durations.getD i "")).bind fun a =>
          (toMs (delays.getD (i % delays.length) "")).map fun b => Dec.add a b) := by
    apply mapM_option_congr
    intro i hi
    have hilt : i < durations.length := List.mem_range.mp hi
    have hget : (extendDelays durations.length delays durations).get? i =
        delays.get? (i % delays.length) :=
      hcyc.2 i (lt_of_lt_of_le hilt hlen)
    simp only [getD_eq_get?, hget]
  rw [hcong]

theorem claim7_witness :
    getTimeout ["1s"] ["2s", "3s"] = getTimeoutCyclicSpec ["1s"] ["2s", "3s"] :=
  claim7_delays_cycled ["1s"] ["2s", "3s"] (by decide)

/-- C8 counterexample: the claim says every value that is not a
two-element pair is normalized to `(value, value)`.  A one-element
array is not a two-element pair, yet `Array.isArray` is true for it, so
the code stores it unchanged instead of pairing it. -/
theorem claim8_short_array_not_normalized :
    (saveArgument emptyProps .argDuration (.arr [.num (Dec.ofInt 300)])).durationProp =
      some (.arr [.num (Dec.ofInt 300)]) ∧
    isTwoElemArray (.arr [.num (Dec.ofInt 300)]) = false := by decide

/-- C8 as amended: binding `duration` normalizes every *non-array*
value `v` to the pair `(v, v)`; array values are stored unchanged
whatever their length.  In particular scalar `500` is stored as
`(500, 500)` and the pair `(300, 500)` is stored unchanged. -/
theorem claim8_duration_normalization (el : TransitionProps) (v : JSVal) :
    (saveArgument el .argDuration v).durationProp =
      some (match v with | .prim p => JSVal.arr [p, p] | .arr l => JSVal.arr l) ∧
    (saveArgument el .argDuration (.prim (.num (Dec.ofInt 500)))).durationProp =
      some (.arr [.num (Dec.ofInt 500), .num (Dec.ofInt 500)]) ∧
    (saveArgument el .argDuration (.arr [.num (Dec.ofInt 300), .num (Dec.ofInt 500)])).durationProp =
      some (.arr [.num (Dec.ofInt 300), .num (Dec.ofInt 500)]) := by
  refine ⟨?_, rfl, rfl⟩
  cases v <;> simp [saveArgument, isArray]

/-- C9: the numeric test vectors.  `toMs` parses the comma-decimal
`"0,3s"` to exactly 300 ms, `getTimeout` on delays `["0s","0.1s"]` and
durations `["0.2s","0.3s"]` is exactly `max(0+200, 100+300) = 400` ms,
and `getTransitionInfo` on an element with those computed values
reports `propCount = 2`.  The last two conjuncts read the results back
as rationals through `Dec.toRat`. -/
theorem claim9_numeric_values :
    toMs "0,3s" = some (Dec.ofInt 300) ∧
    getTimeout ["0s", "0.1s"] ["0.2s", "0.3s"] = some (Dec.ofInt 400) ∧
    (getTransitionInfo ⟨some "0s, 0.1s", some "0.2s, 0.3s", some "all"⟩).propCount = 2 ∧
    (toMs "0,3s").map Dec.toRat = some 300 ∧
    (getTimeout ["0s", "0.1s"] ["0.2s", "0.3s"]).map Dec.toRat = some 400 := by
  refine ⟨by decide, by decide, by decide, ?_, ?_⟩
  · rw [show (toMs "0,3s" = some (Dec.ofInt 300)) from by decide]
    simp [Dec.toRat, Dec.ofInt]
  · rw [show (getTimeout ["0s", "0.1s"] ["0.2s", "0.3s"] = some (Dec.ofInt 400)) from by decide]
    simp [Dec.toRat, Dec.ofInt]

/-- C10: a falsy explicit duration (`0`, or an absent/`null`/`undefined`
value, both modelled by `none`) schedules no explicit-duration timer:
every observable component of the resulting state — pending tasks,
detectors (listener, `propCount` from introspection, fallback timer),
ids, classes, display — is identical to a call with no explicit
duration at all.  (Only the ghost operation log differs, recording the
argument the call was made with.) -/
theorem claim10_falsy_duration_no_timer (s : St) (ph : Phase) (n : String) :
    (whenTransitionEnd s (some (Dec.ofInt 0)) ph n).tasks =
      (whenTransitionEnd s none ph n).tasks ∧
    (whenTransitionEnd s (some (Dec.ofInt 0)) ph n).detectors =
      (whenTransitionEnd s none ph n).detectors ∧
    (whenTransitionEnd s (some (Dec.ofInt 0)) ph n).endIdEl =
      (whenTransitionEnd s none ph n).endIdEl ∧
    (whenTransitionEnd s (some (Dec.ofInt 0)) ph n).globalEndId =
      (whenTransitionEnd s none ph n).globalEndId ∧
    (whenTransitionEnd s (some (Dec.ofInt 0)) ph n).classes =
      (whenTransitionEnd s none ph n).classes ∧
    (whenTransitionEnd s (some (Dec.ofInt 0)) ph n).display =
      (whenTransitionEnd s none ph n).display ∧
    (whenTransitionEnd s (some (Dec.ofInt 0)) ph n).assignedIds =
      (whenTransitionEnd s none ph n).assignedIds := by
  have h : Dec.isTruthy (Dec.ofInt 0) = false := rfl
  refine ⟨?_, ?_, ?_, ?_, ?_, ?_, ?_⟩ <;> simp [whenTransitionEnd, h]

end PVT
